import Mathlib

/-!
Shallow embedding of `util/ranger/checker.go` (package `ranger`): the
condition checker that classifies filter conditions as index access
conditions for one target column, the LIKE pattern scanner, and the
prefix-length estimator `GetLengthOfPrefixableConstant`.

External collaborators (the expression representation, collation
compatibility, constant evaluation, Go's `unicode/utf8.RuneCount`) are
modelled at their interface: expressions are a closed variant type carrying
exactly the fields checker.go reads, collation compatibility is an abstract
boolean predicate passed as a parameter `cc`, and constant evaluation is an
`Option Datum` field (with `none` modelling an evaluation error).

Go's in-place mutation of `conditionChecker.shouldReserve` is modelled by
threading the checker record through the walk and returning the updated
record.  A Go runtime panic (the unchecked type assertion on the escape
argument of LIKE, or an out-of-range argument access) is modelled as the
`none` result of an `Option`-valued walk.
-/

set_option autoImplicit false

namespace RangerChecker

/-- Evaluation type of a declared type: models `types.EvalType`; checker.go only
ever compares against `types.ETString`, so the model keeps the string /
non-string distinction. -/
inductive EvalType where
  | ETString
  | ETOther
deriving DecidableEq, Repr

/-- Declared type of a column or expression: models the fields of
`types.FieldType` that checker.go reads (`EvalType()`, `Collate`, `Charset`). -/
structure FieldType where
  evalType : EvalType
  collate : String
  charset : String
deriving DecidableEq, Repr

/-- Kind of an evaluated datum: models the `types.Datum` kinds checker.go
distinguishes (`KindBytes`, `KindString`); all other kinds behave alike. -/
inductive DatumKind where
  | KindBytes
  | KindString
  | KindInt64
  | KindNull
  | KindOther
deriving DecidableEq, Repr

/-- Evaluated value: models the narrow `types.Datum` interface consumed by
checker.go: `Kind()`, `GetBytes()`, `GetInt64()`, `IsNull()`, `ToString()`
(`none` models a conversion error).  Byte strings are lists of byte values. -/
structure Datum where
  kind : DatumKind
  bytes : List Nat
  int64 : Int
  toStr : Option (List Nat)
deriving DecidableEq, Repr

def Datum.IsNull (d : Datum) : Bool := d.kind == DatumKind.KindNull

def Datum.GetBytes (d : Datum) : List Nat := d.bytes

def Datum.GetInt64 (d : Datum) : Int := d.int64

def Datum.ToString (d : Datum) : Option (List Nat) := d.toStr

/-- Models `expression.Constant` as consumed by checker.go: the literal value,
presence flags for `DeferredExpr` and `ParamMarker`, the result of `Eval` on an
empty row (evaluation is an external collaborator; `none` models an error), and
the declared type returned by `GetType()`. -/
structure ConstantData where
  value : Datum
  deferredExpr : Bool
  paramMarker : Bool
  evalRes : Option Datum
  retType : FieldType
deriving DecidableEq, Repr

mutual

/-- Models `expression.Expression` as a closed variant type: a ScalarFunction
carries its lower-cased function name, argument list, declared type and the
collation derived by `CharsetAndCollation` (the charset half is unused by
checker.go); a Column carries `UniqueID` and `RetType`; the catch-all covers
every other implementation of the interface. -/
inductive Expression where
  | scalarFunction (funcName : String) (args : ExprList)
      (retType : FieldType) (collation : String)
  | column (uniqueID : Int) (retType : FieldType)
  | constant (c : ConstantData)
  | other (retType : FieldType)

/-- Argument list of a ScalarFunction (the `GetArgs()` slice), as a list type
mutual with `Expression` so the walk is structurally recursive. -/
inductive ExprList where
  | nil
  | cons (head : Expression) (tail : ExprList)

end

/-- Builds an argument list from a Lean list literal. -/
def argsOf : List Expression → ExprList
  | [] => ExprList.nil
  | e :: es => ExprList.cons e (argsOf es)

/-- Models `Expression.GetType()`. -/
def Expression.GetType : Expression → FieldType
  | .scalarFunction _ _ rt _ => rt
  | .column _ rt => rt
  | .constant cd => cd.retType
  | .other rt => rt

/-- Models the Go type assertion `e.(*expression.Constant)`. -/
def Expression.asConstant : Expression → Option ConstantData
  | .constant cd => some cd
  | _ => none

namespace charset

@[simp] def CharsetUTF8 : String := "utf8"

@[simp] def CharsetUTF8MB4 : String := "utf8mb4"

end charset

namespace ast

/- Function-name constants mirroring `github.com/pingcap/parser/ast`; only
their distinctness matters to checker.go. -/

@[simp] def LogicAnd : String := "and"

@[simp] def LogicOr : String := "or"

@[simp] def EQ : String := "eq"

@[simp] def NE : String := "ne"

@[simp] def GE : String := "ge"

@[simp] def GT : String := "gt"

@[simp] def LE : String := "le"

@[simp] def LT : String := "lt"

@[simp] def NullEQ : String := "nulleq"

@[simp] def IsNull : String := "isnull"

@[simp] def IsTruthWithoutNull : String := "istrue"

@[simp] def IsTruthWithNull : String := "istrue_with_null"

@[simp] def IsFalsity : String := "isfalse"

@[simp] def UnaryNot : String := "not"

@[simp] def In : String := "in"

@[simp] def Like : String := "like"

@[simp] def GetParam : String := "getparam"

end ast

/-- First-byte-dependent lower bound for the first continuation byte of a UTF-8
sequence (Go `utf8.acceptRanges`). -/
def acceptLo (b : Nat) : Nat :=
  if b == 0xE0 then 0xA0 else if b == 0xF0 then 0x90 else 0x80

/-- First-byte-dependent upper bound for the first continuation byte of a UTF-8
sequence (Go `utf8.acceptRanges`). -/
def acceptHi (b : Nat) : Nat :=
  if b == 0xED then 0x9F else if b == 0xF4 then 0x8F else 0xBF

/-- True iff the byte is a UTF-8 continuation byte. -/
def isCont (b : Nat) : Bool := 0x80 ≤ b && b ≤ 0xBF

/-- Number of bytes consumed for the rune starting with first byte `b` and
followed by `rest`: 1 for ASCII and for every invalid, out-of-range or
truncated sequence, otherwise the full 2/3/4-byte sequence length (the size
computed by one iteration of Go's `utf8.RuneCount` loop). -/
def runeSize (b : Nat) (rest : List Nat) : Nat :=
  if b < 0x80 then 1
  else if b < 0xC2 || 0xF4 < b then 1
  else if b < 0xE0 then
    match rest with
    | b1 :: _ => if acceptLo b ≤ b1 && b1 ≤ acceptHi b then 2 else 1
    | _ => 1
  else if b < 0xF0 then
    match rest with
    | b1 :: b2 :: _ =>
      if acceptLo b ≤ b1 && b1 ≤ acceptHi b then
        if isCont b2 then 3 else 1
      else 1
    | _ => 1
  else
    match rest with
    | b1 :: b2 :: b3 :: _ =>
      if acceptLo b ≤ b1 && b1 ≤ acceptHi b then
        if isCont b2 then
          if isCont b3 then 4 else 1
        else 1
      else 1
    | _ => 1

/-- Scan state of the rune counter: `skip` is the number of continuation bytes
of the current rune still to be consumed before the next rune starts. -/
def runeCountAux : List Nat → Nat → Nat
  | [], _ => 0
  | _ :: rest, Nat.succ skip => runeCountAux rest skip
  | b :: rest, 0 => 1 + runeCountAux rest (runeSize b rest - 1)

/-- Modelled from Go's `unicode/utf8.RuneCount`, the external decoder used by
`GetLengthOfPrefixableConstant`: counts the UTF-8 encoded runes in a byte
sequence; an invalid leading byte, an out-of-range continuation byte or a
truncated sequence contributes one rune of size one. -/
def runeCount (s : List Nat) : Nat := runeCountAux s 0

/-- Models `GetLengthOfPrefixableConstant`: the length in characters of the
constant if it statically evaluates to a bytes/string value (runes for a UTF-8
family column charset, raw bytes otherwise), `-1` otherwise.  `none` models a
nil `*expression.Constant`. -/
def GetLengthOfPrefixableConstant (c : Option ConstantData) (tp : FieldType) : Int :=
  match c with
  | none => -1
  | some cst =>
    if cst.deferredExpr || cst.paramMarker then -1
    else
      match cst.evalRes with
      | none => -1
      | some val =>
        if val.kind != DatumKind.KindBytes && val.kind != DatumKind.KindString then -1
        else
          let colCharset := tp.charset
          let isUTF8Charset := colCharset == charset.CharsetUTF8
              || colCharset == charset.CharsetUTF8MB4
          if isUTF8Charset then (runeCount val.GetBytes : Int)
          else (val.GetBytes.length : Int)

/-- Models `conditionChecker`: target column identity, target prefix length,
full-length flag, and the `shouldReserve` accumulator (mutated in place in Go,
threaded through the walk here). -/
structure ConditionChecker where
  colUniqueID : Int
  shouldReserve : Bool
  length : Int
  isFullLength : Bool
deriving DecidableEq, Repr

/-- Models `conditionChecker.checkColumn`: true iff the expression is a Column
whose `UniqueID` equals the checker's target column id.  Pure, no state. -/
def checkColumn (c : ConditionChecker) (expr : Expression) : Bool :=
  match expr with
  | Expression.column uid _ => c.colUniqueID == uid
  | _ => false

/-- Byte value of the `%` wildcard. -/
def percentByte : Nat := 37

/-- Byte value of the `_` wildcard. -/
def underscoreByte : Nat := 95

mutual

/-- Models the escape step of the pattern scan: the current byte equals the
escape byte, so the following byte is skipped as a literal; the scan continues
only when at least two bytes follow the escape byte (Go: `i++` then `continue`
iff the new `i < len(patternStr)-1`, else `break`). -/
def likeScanEscape (c : ConditionChecker) (escape : Nat) (rest : List Nat) :
    Bool × ConditionChecker :=
  match rest with
  | [] => (true, c)
  | [_] => (true, c)
  | _ :: tail => likeScan c escape tail false

/-- Models the byte-scanning `for` loop of `checkLikeFunc` over the pattern
string: `s` is the unscanned suffix, `atStart` records whether the current byte
is at index 0 of the whole pattern.  Returns the boolean result of the loop
(false only for an unescaped leading wildcard) and the updated checker. -/
def likeScan (c : ConditionChecker) (escape : Nat) (s : List Nat) (atStart : Bool) :
    Bool × ConditionChecker :=
  match s with
  | [] => (true, c)
  | b :: rest =>
    if b == escape then likeScanEscape c escape rest
    else if atStart && (b == percentByte || b == underscoreByte) then (false, c)
    else if b == percentByte then
      (true, if rest.isEmpty then c else { c with shouldReserve := true })
    else if b == underscoreByte then (true, { c with shouldReserve := true })
    else likeScan c escape rest false

end

/-- Models `conditionChecker.checkLikeFunc`.  The collation-compatibility
predicate `cc` stands for `collate.CompatibleCollate`; `collation` is the one
derived by `CharsetAndCollation` on the LIKE node.  `none` models a Go panic:
an out-of-range argument access or the unchecked type assertion
`GetArgs()[2].(*expression.Constant)` on the escape argument. -/
def checkLikeFunc (cc : String → String → Bool) (c : ConditionChecker)
    (args : ExprList) (collation : String) : Option (Bool × ConditionChecker) :=
  match args with
  | ExprList.nil => none
  | ExprList.cons a0 rest0 =>
    if !(cc a0.GetType.collate collation) then some (false, c)
    else if !(checkColumn c a0) then some (false, c)
    else
      match rest0 with
      | ExprList.nil => none
      | ExprList.cons a1 rest1 =>
        match a1.asConstant with
        | none => some (false, c)
        | some patternC =>
          if patternC.value.IsNull then some (false, c)
          else
            match patternC.value.ToString with
            | none => some (false, c)
            | some patternStr =>
              if patternStr.length == 0 then some (true, c)
              else
                match rest1 with
                | ExprList.nil => none
                | ExprList.cons a2 _ =>
                  match a2.asConstant with
                  | none => none
                  | some escC =>
                    let escape := (escC.value.GetInt64 % 256).toNat
                    some (likeScan c escape patternStr true)

/-- Models the shared body of the comparison case of `checkScalarFunction`,
entered once one argument is a Constant (`constVal`) and the other
(`colSide`) has passed `checkColumn`. -/
def cmpBranch (cc : String → String → Bool) (c : ConditionChecker) (funcName : String)
    (constVal : ConstantData) (colSide : Expression) (collation : String) :
    Option (Bool × ConditionChecker) :=
  if colSide.GetType.evalType == EvalType.ETString
      && !(cc colSide.GetType.collate collation) then some (false, c)
  else if c.isFullLength then some (true, c)
  else
    let constLen := GetLengthOfPrefixableConstant (some constVal) colSide.GetType
    if funcName == ast.NE then
      some (constLen != -1 && decide (constLen < c.length), c)
    else if constLen == -1 || decide (c.length ≤ constLen) then
      some (true, { c with shouldReserve := true })
    else some (true, c)

/-- Models the `for` loop over `GetArgs()[1:]` in the `ast.In` case of
`checkScalarFunction`: every element must be a Constant; in non-full-length
mode each constant's prefixable length against the column type `tp0` may set
`shouldReserve`. -/
def inListLoop (tp0 : FieldType) : ConditionChecker → ExprList →
    Bool × ConditionChecker
  | c, ExprList.nil => (true, c)
  | c, ExprList.cons v vs =>
    match v.asConstant with
    | some constVal =>
      let c1 :=
        if !c.isFullLength then
          let constLen := GetLengthOfPrefixableConstant (some constVal) tp0
          if constLen == -1 || decide (c.length ≤ constLen) then
            { c with shouldReserve := true }
          else c
        else c
      inListLoop tp0 c1 vs
    | none => (false, c)

mutual

/-- Models `conditionChecker.check`: dispatch on the expression variant.  The
pair returned alongside the boolean is the checker after the walk (its
`shouldReserve` field carries the in-place mutation of the Go code); `none`
models a Go panic inside the walk. -/
def check (cc : String → String → Bool) (c : ConditionChecker)
    (condition : Expression) : Option (Bool × ConditionChecker) :=
  match condition with
  | Expression.scalarFunction funcName args _ collation =>
    checkScalarFunction cc c funcName args collation
  | Expression.column uid rt =>
    if rt.evalType == EvalType.ETString then some (false, c)
    else
      let c1 := if !c.isFullLength then { c with shouldReserve := true } else c
      some (checkColumn c1 (Expression.column uid rt), c1)
  | Expression.constant _ => some (true, c)
  | Expression.other _ => some (false, c)

/-- Models `conditionChecker.checkScalarFunction`: dispatch on the lower-cased
function name of a ScalarFunction node with arguments `args` and derived
collation `collation`. -/
def checkScalarFunction (cc : String → String → Bool) (c : ConditionChecker)
    (funcName : String) (args : ExprList) (collation : String) :
    Option (Bool × ConditionChecker) :=
  if funcName == ast.LogicOr || funcName == ast.LogicAnd then
    match args with
    | ExprList.cons a0 (ExprList.cons a1 _) =>
      match check cc c a0 with
      | none => none
      | some (r0, c0) =>
        if r0 then check cc c0 a1
        else some (false, c0)
    | _ => none
  else if funcName == ast.EQ || funcName == ast.NE || funcName == ast.GE
      || funcName == ast.GT || funcName == ast.LE || funcName == ast.LT
      || funcName == ast.NullEQ then
    match args with
    | ExprList.cons a0 (ExprList.cons a1 _) =>
      match a0.asConstant with
      | some constVal =>
        if checkColumn c a1 then cmpBranch cc c funcName constVal a1 collation
        else
          match a1.asConstant with
          | some constVal1 =>
            if checkColumn c a0 then cmpBranch cc c funcName constVal1 a0 collation
            else some (false, c)
          | none => some (false, c)
      | none =>
        match a1.asConstant with
        | some constVal1 =>
          if checkColumn c a0 then cmpBranch cc c funcName constVal1 a0 collation
          else some (false, c)
        | none => some (false, c)
    | _ => none
  else if funcName == ast.IsNull then
    match args with
    | ExprList.cons a0 _ =>
      let c1 := if !c.isFullLength then { c with shouldReserve := true } else c
      some (checkColumn c1 a0, c1)
    | ExprList.nil => none
  else if funcName == ast.IsTruthWithoutNull || funcName == ast.IsFalsity
      || funcName == ast.IsTruthWithNull then
    match args with
    | ExprList.cons a0 _ =>
      if (match a0 with
          | Expression.column _ rt => rt.evalType == EvalType.ETString
          | _ => false) then some (false, c)
      else
        let c1 := if !c.isFullLength then { c with shouldReserve := true } else c
        some (checkColumn c1 a0, c1)
    | ExprList.nil => none
  else if funcName == ast.UnaryNot then
    match args with
    | ExprList.cons a0 _ =>
      match a0 with
      | Expression.scalarFunction innerName innerArgs innerRt innerColl =>
        if innerName == ast.Like then some (false, c)
        else check cc c (Expression.scalarFunction innerName innerArgs innerRt innerColl)
      | _ => some (false, c)
    | ExprList.nil => none
  else if funcName == ast.In then
    match args with
    | ExprList.nil => none
    | ExprList.cons a0 rest =>
      if !(checkColumn c a0) then some (false, c)
      else
        match rest with
        | ExprList.nil => none
        | ExprList.cons a1 _ =>
          if a1.GetType.evalType == EvalType.ETString
              && !(cc a0.GetType.collate collation) then some (false, c)
          else some (inListLoop a0.GetType c rest)
  else if funcName == ast.Like then
    let c1 := if !c.isFullLength then { c with shouldReserve := true } else c
    checkLikeFunc cc c1 args collation
  else if funcName == ast.GetParam then some (true, c)
  else some (false, c)

end

/-! Equation lemmas: one small equation per dispatch branch of the walk,
recovering the Go control flow from the compiled fixpoint. -/

theorem check_scalarFunction_eq (cc : String → String → Bool) (c : ConditionChecker)
    (fn : String) (args : ExprList) (rt : FieldType) (coll : String) :
    check cc c (Expression.scalarFunction fn args rt coll) =
      checkScalarFunction cc c fn args coll := rfl

theorem check_column_eq (cc : String → String → Bool) (c : ConditionChecker)
    (uid : Int) (rt : FieldType) :
    check cc c (Expression.column uid rt) =
      if rt.evalType == EvalType.ETString then some (false, c)
      else
        let c1 := if !c.isFullLength then { c with shouldReserve := true } else c
        some (checkColumn c1 (Expression.column uid rt), c1) := rfl

theorem check_constant_eq (cc : String → String → Bool) (c : ConditionChecker)
    (cd : ConstantData) :
    check cc c (Expression.constant cd) = some (true, c) := rfl

theorem check_other_eq (cc : String → String → Bool) (c : ConditionChecker)
    (rt : FieldType) :
    check cc c (Expression.other rt) = some (false, c) := rfl

theorem csf_logic_eq (cc : String → String → Bool) (c : ConditionChecker) (fn : String)
    (h : fn = ast.LogicOr ∨ fn = ast.LogicAnd) (a0 a1 : Expression)
    (rest : ExprList) (coll : String) :
    checkScalarFunction cc c fn (ExprList.cons a0 (ExprList.cons a1 rest)) coll =
      match check cc c a0 with
      | none => none
      | some (r0, c0) => if r0 then check cc c0 a1 else some (false, c0) := by
  rcases h with h | h <;> subst h <;> rfl

/-- True iff the expression is a ScalarFunction node (the Go type test
`args[0].(*expression.ScalarFunction)`). -/
def Expression.isScalarFunction : Expression → Bool
  | .scalarFunction _ _ _ _ => true
  | _ => false

/-- The seven comparison operators of the comparison case of
`checkScalarFunction`. -/
def isCmpOp (fn : String) : Prop :=
  fn = ast.EQ ∨ fn = ast.NE ∨ fn = ast.GE ∨ fn = ast.GT ∨ fn = ast.LE
    ∨ fn = ast.LT ∨ fn = ast.NullEQ

theorem csf_cmp_constFirst_eq (cc : String → String → Bool) (c : ConditionChecker)
    (fn : String) (h : isCmpOp fn) (cv : ConstantData) (a1 : Expression)
    (rest : ExprList) (coll : String) (hcol : checkColumn c a1 = true) :
    checkScalarFunction cc c fn
        (ExprList.cons (Expression.constant cv) (ExprList.cons a1 rest)) coll =
      cmpBranch cc c fn cv a1 coll := by
  rcases h with h | h | h | h | h | h | h <;> subst h <;>
    simp [checkScalarFunction, Expression.asConstant, hcol]

theorem csf_cmp_colFirst_eq (cc : String → String → Bool) (c : ConditionChecker)
    (fn : String) (h : isCmpOp fn) (uid : Int) (rt : FieldType) (cv : ConstantData)
    (rest : ExprList) (coll : String)
    (hcol : checkColumn c (Expression.column uid rt) = true) :
    checkScalarFunction cc c fn
        (ExprList.cons (Expression.column uid rt)
          (ExprList.cons (Expression.constant cv) rest)) coll =
      cmpBranch cc c fn cv (Expression.column uid rt) coll := by
  rcases h with h | h | h | h | h | h | h <;> subst h <;>
    simp [checkScalarFunction, Expression.asConstant, hcol]

theorem csf_not_inner_like_eq (cc : String → String → Bool) (c : ConditionChecker)
    (iargs : ExprList) (irt : FieldType) (icoll : String) (rest : ExprList)
    (coll : String) :
    checkScalarFunction cc c ast.UnaryNot
        (ExprList.cons (Expression.scalarFunction ast.Like iargs irt icoll) rest) coll =
      some (false, c) := rfl

theorem csf_not_inner_scalar_eq (cc : String → String → Bool) (c : ConditionChecker)
    (inner : String) (hinner : ¬ inner = ast.Like) (iargs : ExprList) (irt : FieldType)
    (icoll : String) (rest : ExprList) (coll : String) :
    checkScalarFunction cc c ast.UnaryNot
        (ExprList.cons (Expression.scalarFunction inner iargs irt icoll) rest) coll =
      check cc c (Expression.scalarFunction inner iargs irt icoll) := by
  simp only [ast.Like] at hinner
  simp [checkScalarFunction, hinner]

theorem csf_not_nonscalar_eq (cc : String → String → Bool) (c : ConditionChecker)
    (a0 : Expression) (h : a0.isScalarFunction = false) (rest : ExprList)
    (coll : String) :
    checkScalarFunction cc c ast.UnaryNot (ExprList.cons a0 rest) coll =
      some (false, c) := by
  cases a0 <;> simp_all [Expression.isScalarFunction] <;> rfl

theorem csf_in_eq (cc : String → String → Bool) (c : ConditionChecker)
    (a0 a1 : Expression) (rest : ExprList) (coll : String) :
    checkScalarFunction cc c ast.In (ExprList.cons a0 (ExprList.cons a1 rest)) coll =
      if !(checkColumn c a0) then some (false, c)
      else if a1.GetType.evalType == EvalType.ETString
          && !(cc a0.GetType.collate coll) then some (false, c)
      else some (inListLoop a0.GetType c (ExprList.cons a1 rest)) := rfl

theorem csf_like_eq (cc : String → String → Bool) (c : ConditionChecker)
    (args : ExprList) (coll : String) :
    checkScalarFunction cc c ast.Like args coll =
      checkLikeFunc cc (if !c.isFullLength then { c with shouldReserve := true } else c)
        args coll := by
  cases args with
  | nil => rfl
  | cons a0 t =>
    cases t with
    | nil => rfl
    | cons a1 t2 => rfl

theorem csf_isnull_eq (cc : String → String → Bool) (c : ConditionChecker)
    (a0 : Expression) (rest : ExprList) (coll : String) :
    checkScalarFunction cc c ast.IsNull (ExprList.cons a0 rest) coll =
      (let c1 := if !c.isFullLength then { c with shouldReserve := true } else c
       some (checkColumn c1 a0, c1)) := rfl

theorem csf_cmp_eq (cc : String → String → Bool) (c : ConditionChecker) (fn : String)
    (h : isCmpOp fn) (a0 a1 : Expression) (rest : ExprList) (coll : String) :
    checkScalarFunction cc c fn (ExprList.cons a0 (ExprList.cons a1 rest)) coll =
      (match a0.asConstant with
       | some cv =>
         if checkColumn c a1 then cmpBranch cc c fn cv a1 coll
         else
           match a1.asConstant with
           | some cv1 =>
             if checkColumn c a0 then cmpBranch cc c fn cv1 a0 coll
             else some (false, c)
           | none => some (false, c)
       | none =>
         match a1.asConstant with
         | some cv1 =>
           if checkColumn c a0 then cmpBranch cc c fn cv1 a0 coll
           else some (false, c)
         | none => some (false, c)) := by
  rcases h with h | h | h | h | h | h | h <;> subst h <;> rfl

theorem csf_truth_eq (cc : String → String → Bool) (c : ConditionChecker) (fn : String)
    (h : fn = ast.IsTruthWithoutNull ∨ fn = ast.IsFalsity ∨ fn = ast.IsTruthWithNull)
    (a0 : Expression) (rest : ExprList) (coll : String) :
    checkScalarFunction cc c fn (ExprList.cons a0 rest) coll =
      (if (match a0 with
           | Expression.column _ rt => rt.evalType == EvalType.ETString
           | _ => false) then some (false, c)
       else
         let c1 := if !c.isFullLength then { c with shouldReserve := true } else c
         some (checkColumn c1 a0, c1)) := by
  rcases h with h | h | h <;> subst h <;> rfl

theorem csf_getparam_eq (cc : String → String → Bool) (c : ConditionChecker)
    (t : ExprList) (coll : String) :
    checkScalarFunction cc c ast.GetParam t coll = some (true, c) := by
  cases t with
  | nil => rfl
  | cons a0 t2 => cases t2 <;> rfl

theorem csf_in_colreject_eq (cc : String → String → Bool) (c : ConditionChecker)
    (a0 : Expression) (rest : ExprList) (coll : String)
    (h : checkColumn c a0 = false) :
    checkScalarFunction cc c ast.In (ExprList.cons a0 rest) coll = some (false, c) := by
  cases rest <;> simp [checkScalarFunction, h]

theorem csf_in_single_eq (cc : String → String → Bool) (c : ConditionChecker)
    (a0 : Expression) (coll : String) (h : checkColumn c a0 = true) :
    checkScalarFunction cc c ast.In (ExprList.cons a0 ExprList.nil) coll = none := by
  simp [checkScalarFunction, h]

set_option maxHeartbeats 1600000 in
theorem csf_default_eq (cc : String → String → Bool) (c : ConditionChecker)
    (fn : String) (t : ExprList) (coll : String)
    (h1 : ¬(fn == ast.LogicOr || fn == ast.LogicAnd) = true)
    (h2 : ¬(fn == ast.EQ || fn == ast.NE || fn == ast.GE || fn == ast.GT
      || fn == ast.LE || fn == ast.LT || fn == ast.NullEQ) = true)
    (h3 : ¬(fn == ast.IsNull) = true)
    (h4 : ¬(fn == ast.IsTruthWithoutNull || fn == ast.IsFalsity
      || fn == ast.IsTruthWithNull) = true)
    (h5 : ¬(fn == ast.UnaryNot) = true)
    (h6 : ¬(fn == ast.In) = true)
    (h7 : ¬(fn == ast.Like) = true)
    (h8 : ¬(fn == ast.GetParam) = true) :
    checkScalarFunction cc c fn t coll = some (false, c) := by
  cases t with
  | nil =>
    simp only [checkScalarFunction]
    rw [if_neg h1, if_neg h2, if_neg h3, if_neg h4, if_neg h5, if_neg h6, if_neg h7,
      if_neg h8]
  | cons a0 t2 =>
    cases t2 <;> cases a0 <;>
      (simp only [checkScalarFunction]
       rw [if_neg h1, if_neg h2, if_neg h3, if_neg h4, if_neg h5, if_neg h6, if_neg h7,
         if_neg h8])

/-- Extracts the final checker from an equation between walk results. -/
theorem state_of_some_eq {p : Bool × ConditionChecker} {b : Bool} {c' : ConditionChecker}
    (h : (some p : Option (Bool × ConditionChecker)) = some (b, c')) : c' = p.2 := by
  injection h with h2
  rw [h2]

theorem cmpOp_of_beq {fn : String}
    (h : (fn == ast.EQ || fn == ast.NE || fn == ast.GE || fn == ast.GT || fn == ast.LE
      || fn == ast.LT || fn == ast.NullEQ) = true) : isCmpOp fn := by
  simp only [Bool.or_eq_true, beq_iff_eq] at h
  unfold isCmpOp
  tauto

theorem logicOp_of_beq {fn : String}
    (h : (fn == ast.LogicOr || fn == ast.LogicAnd) = true) :
    fn = ast.LogicOr ∨ fn = ast.LogicAnd := by
  simp only [Bool.or_eq_true, beq_iff_eq] at h
  exact h

theorem truthOp_of_beq {fn : String}
    (h : (fn == ast.IsTruthWithoutNull || fn == ast.IsFalsity
      || fn == ast.IsTruthWithNull) = true) :
    fn = ast.IsTruthWithoutNull ∨ fn = ast.IsFalsity ∨ fn = ast.IsTruthWithNull := by
  simp only [Bool.or_eq_true, beq_iff_eq] at h
  tauto

/-! Monotonicity of the `shouldReserve` accumulator: every state update of the
walk either keeps the checker or sets the flag to true, so a flag that is
already true stays true. -/

theorem likeScan_reserve_mono_aux (n : Nat) :
    ∀ (s : List Nat), s.length ≤ n → ∀ (c : ConditionChecker) (escape : Nat)
      (atStart : Bool), c.shouldReserve = true →
      ((likeScan c escape s atStart).2).shouldReserve = true := by
  induction n with
  | zero =>
    intro s hs c e st h
    cases s with
    | nil => simpa [likeScan] using h
    | cons b rest => simp at hs
  | succ n ihn =>
    intro s hs c e st h
    cases s with
    | nil => simpa [likeScan] using h
    | cons b rest =>
      simp only [likeScan]
      by_cases hbe : (b == e) = true
      · rw [if_pos hbe]
        cases rest with
        | nil => simpa [likeScanEscape] using h
        | cons x tail =>
          cases tail with
          | nil => simpa [likeScanEscape] using h
          | cons y t2 =>
            simp only [likeScanEscape]
            exact ihn (y :: t2) (by simp at hs ⊢; omega) c e false h
      · rw [if_neg hbe]
        by_cases hw : (st && (b == percentByte || b == underscoreByte)) = true
        · rw [if_pos hw]; simpa using h
        · rw [if_neg hw]
          by_cases hp : (b == percentByte) = true
          · rw [if_pos hp]
            by_cases hre : rest.isEmpty <;> simp [hre, h]
          · rw [if_neg hp]
            by_cases hu : (b == underscoreByte) = true
            · rw [if_pos hu]
            · rw [if_neg hu]
              exact ihn rest (by simp at hs; omega) c e false h

theorem likeScan_reserve_mono (c : ConditionChecker) (escape : Nat) (s : List Nat)
    (atStart : Bool) (h : c.shouldReserve = true) :
    ((likeScan c escape s atStart).2).shouldReserve = true :=
  likeScan_reserve_mono_aux s.length s le_rfl c escape atStart h

theorem inListLoop_reserve_mono (tp0 : FieldType) :
    ∀ (vs : ExprList) (c : ConditionChecker),
      c.shouldReserve = true → ((inListLoop tp0 c vs).2).shouldReserve = true
  | ExprList.nil, c, h => by simpa [inListLoop] using h
  | ExprList.cons v vs, c, h => by
    cases hv : v.asConstant with
    | none => simp [inListLoop, hv, h]
    | some cv =>
      simp only [inListLoop, hv]
      exact inListLoop_reserve_mono tp0 vs _ (by split_ifs <;> simp [h])

theorem cmpBranch_reserve_mono (cc : String → String → Bool) (c : ConditionChecker)
    (fn : String) (cv : ConstantData) (colSide : Expression) (coll : String)
    (b : Bool) (c' : ConditionChecker)
    (heq : cmpBranch cc c fn cv colSide coll = some (b, c'))
    (h : c.shouldReserve = true) : c'.shouldReserve = true := by
  unfold cmpBranch at heq
  dsimp only at heq
  split_ifs at heq <;>
    (simp only [Option.some.injEq, Prod.mk.injEq] at heq
     obtain ⟨hb, hcc⟩ := heq
     subst hcc
     simp_all)

theorem checkLikeFunc_reserve_mono (cc : String → String → Bool) (c : ConditionChecker)
    (args : ExprList) (coll : String) (b : Bool) (c' : ConditionChecker)
    (heq : checkLikeFunc cc c args coll = some (b, c'))
    (h : c.shouldReserve = true) : c'.shouldReserve = true := by
  cases args with
  | nil => simp [checkLikeFunc] at heq
  | cons a0 rest0 =>
    cases rest0 with
    | nil =>
      simp only [checkLikeFunc] at heq
      split_ifs at heq <;> simp_all
    | cons a1 rest1 =>
      simp only [checkLikeFunc] at heq
      split_ifs at heq with h1 h2
      · simp_all
      · simp_all
      rcases hc : a1.asConstant with _ | cv <;> rw [hc] at heq <;> dsimp only at heq
      · simp_all
      by_cases hnull : cv.value.IsNull = true
      · simp [hnull] at heq; simp_all
      rw [if_neg hnull] at heq
      rcases hts : cv.value.ToString with _ | ps <;> rw [hts] at heq <;> dsimp only at heq
      · simp_all
      by_cases hlen : (ps.length == 0) = true
      · rw [if_pos hlen] at heq; simp_all
      rw [if_neg hlen] at heq
      cases rest1 with
      | nil => simp_all
      | cons a2 rest2 =>
        dsimp only at heq
        rcases he : a2.asConstant with _ | esc <;> rw [he] at heq <;> dsimp only at heq
        · simp_all
        have hm := likeScan_reserve_mono c ((esc.value.GetInt64 % 256).toNat) ps true h
        simp only [Option.some_inj] at heq
        rw [show c' = (likeScan c ((esc.value.GetInt64 % 256).toNat) ps true).2 from
          (congrArg Prod.snd heq.symm)]
        exact hm

theorem check_reserve_mono (cc : String → String → Bool) :
    ∀ (c : ConditionChecker) (e : Expression) (b : Bool) (c' : ConditionChecker),
      check cc c e = some (b, c') → c.shouldReserve = true → c'.shouldReserve = true := by
  apply check.induct cc
    (fun c e => ∀ b c', check cc c e = some (b, c') →
      c.shouldReserve = true → c'.shouldReserve = true)
    (fun c fn args coll => ∀ b c', checkScalarFunction cc c fn args coll = some (b, c') →
      c.shouldReserve = true → c'.shouldReserve = true)
  -- scalar-function dispatch
  · intro c fn args rt coll ih b c' heq hres
    rw [check_scalarFunction_eq] at heq
    exact ih b c' heq hres
  -- string column: rejected, state untouched
  · intro c uid rt hst b c' heq hres
    rw [check_column_eq, if_pos hst] at heq
    rw [state_of_some_eq heq]
    exact hres
  -- non-string column: may set the flag
  · intro c uid rt hst b c' heq hres
    rw [check_column_eq, if_neg hst] at heq
    dsimp only at heq
    rw [state_of_some_eq heq]
    split_ifs <;> simp [hres]
  -- constant
  · intro c cd b c' heq hres
    rw [check_constant_eq] at heq
    rw [state_of_some_eq heq]
    exact hres
  -- other
  · intro c rt b c' heq hres
    rw [check_other_eq] at heq
    rw [state_of_some_eq heq]
    exact hres
  -- logic, first child panics
  · intro c fn coll hOr a0 a1 tail h0 ih b c' heq hres
    rw [csf_logic_eq cc c fn (logicOp_of_beq hOr) a0 a1 tail coll, h0] at heq
    simp at heq
  -- logic, first child accepts
  · intro c fn coll hOr a0 a1 tail c0 h0 ih0 ih1 b c' heq hres
    rw [csf_logic_eq cc c fn (logicOp_of_beq hOr) a0 a1 tail coll, h0] at heq
    dsimp only at heq
    rw [if_pos rfl] at heq
    exact ih1 b c' heq (ih0 true c0 h0 hres)
  -- logic, first child rejects
  · intro c fn coll hOr a0 a1 tail r0 c0 h0 hr0 ih0 b c' heq hres
    rw [csf_logic_eq cc c fn (logicOp_of_beq hOr) a0 a1 tail coll, h0] at heq
    dsimp only at heq
    rw [if_neg hr0] at heq
    rw [state_of_some_eq heq]
    exact ih0 r0 c0 h0 hres
  -- logic, malformed arity: panic
  · intro t c fn coll hOr hshape b c' heq hres
    rcases logicOp_of_beq hOr with rfl | rfl <;>
      (cases t with
       | nil => simp [checkScalarFunction] at heq
       | cons a0 t2 =>
         cases t2 with
         | nil => simp [checkScalarFunction] at heq
         | cons a1 tail => exact (hshape a0 a1 tail rfl).elim)
  -- comparison, constant-first shape matches
  · intro c fn coll hnl hcmp a0 a1 tail cv hconst hcol b c' heq hres
    rw [csf_cmp_eq cc c fn (cmpOp_of_beq hcmp) a0 a1 tail coll, hconst] at heq
    dsimp only at heq
    rw [if_pos hcol] at heq
    exact cmpBranch_reserve_mono cc c fn cv a1 coll b c' heq hres
  -- comparison, constant also passing checkColumn: impossible
  · intro c fn coll hnl hcmp a0 a1 tail cv hconst hncol cv1 hconst1 hcol0 b c' heq hres
    cases a0 <;> simp_all [Expression.asConstant, checkColumn]
  -- comparison, both shapes fail: rejected
  · intro c fn coll hnl hcmp a0 a1 tail cv hconst hncol cv1 hconst1 hncol0 b c' heq hres
    rw [csf_cmp_eq cc c fn (cmpOp_of_beq hcmp) a0 a1 tail coll, hconst] at heq
    dsimp only at heq
    rw [if_neg hncol, hconst1] at heq
    dsimp only at heq
    rw [if_neg hncol0] at heq
    rw [state_of_some_eq heq]
    exact hres
  -- comparison, second argument not constant: rejected
  · intro c fn coll hnl hcmp a0 a1 tail cv hconst hncol hc1none b c' heq hres
    rw [csf_cmp_eq cc c fn (cmpOp_of_beq hcmp) a0 a1 tail coll, hconst] at heq
    dsimp only at heq
    rw [if_neg hncol, hc1none] at heq
    dsimp only at heq
    rw [state_of_some_eq heq]
    exact hres
  -- comparison, column-first shape matches
  · intro c fn coll hnl hcmp a0 a1 tail hc0none cv1 hconst1 hcol0 b c' heq hres
    rw [csf_cmp_eq cc c fn (cmpOp_of_beq hcmp) a0 a1 tail coll, hc0none] at heq
    dsimp only at heq
    rw [hconst1] at heq
    dsimp only at heq
    rw [if_pos hcol0] at heq
    exact cmpBranch_reserve_mono cc c fn cv1 a0 coll b c' heq hres
  -- comparison, column side fails checkColumn: rejected
  · intro c fn coll hnl hcmp a0 a1 tail hc0none cv1 hconst1 hncol0 b c' heq hres
    rw [csf_cmp_eq cc c fn (cmpOp_of_beq hcmp) a0 a1 tail coll, hc0none] at heq
    dsimp only at heq
    rw [hconst1] at heq
    dsimp only at heq
    rw [if_neg hncol0] at heq
    rw [state_of_some_eq heq]
    exact hres
  -- comparison, no constant at all: rejected
  · intro c fn coll hnl hcmp a0 a1 tail hc0none hc1none b c' heq hres
    rw [csf_cmp_eq cc c fn (cmpOp_of_beq hcmp) a0 a1 tail coll, hc0none] at heq
    dsimp only at heq
    rw [hc1none] at heq
    dsimp only at heq
    rw [state_of_some_eq heq]
    exact hres
  -- comparison, malformed arity: panic
  · intro t c fn coll hnl hcmp hshape b c' heq hres
    rcases cmpOp_of_beq hcmp with rfl | rfl | rfl | rfl | rfl | rfl | rfl <;>
      (cases t with
       | nil => simp [checkScalarFunction] at heq
       | cons a0 t2 =>
         cases t2 with
         | nil => simp [checkScalarFunction] at heq
         | cons a1 tail => exact (hshape a0 a1 tail rfl).elim)
  -- isnull with an operand
  · intro c fn coll h1 h2 hIs a0 tail b c' heq hres
    have hfn := eq_of_beq hIs
    subst hfn
    rw [csf_isnull_eq] at heq
    dsimp only at heq
    rw [state_of_some_eq heq]
    dsimp only
    split_ifs <;> simp [hres]
  -- isnull with no operand: panic
  · intro c fn coll h1 h2 hIs b c' heq hres
    have hfn := eq_of_beq hIs
    subst hfn
    simp [checkScalarFunction] at heq
  -- truthiness of a string column: rejected
  · intro c fn coll h1 h2 h3 hT a0 tail hmatch b c' heq hres
    rw [csf_truth_eq cc c fn (truthOp_of_beq hT) a0 tail coll, if_pos hmatch] at heq
    rw [state_of_some_eq heq]
    exact hres
  -- truthiness otherwise: may set the flag
  · intro c fn coll h1 h2 h3 hT a0 tail hmatch b c' heq hres
    rw [csf_truth_eq cc c fn (truthOp_of_beq hT) a0 tail coll, if_neg hmatch] at heq
    dsimp only at heq
    rw [state_of_some_eq heq]
    dsimp only
    split_ifs <;> simp [hres]
  -- truthiness with no operand: panic
  · intro c fn coll h1 h2 h3 hT b c' heq hres
    rcases truthOp_of_beq hT with rfl | rfl | rfl <;> simp [checkScalarFunction] at heq
  -- not of an inner LIKE: rejected
  · intro c fn coll h1 h2 h3 h4 hN tail innerName innerArgs innerRt innerColl hLike
      b c' heq hres
    have hfn := eq_of_beq hN
    subst hfn
    have hil := eq_of_beq hLike
    subst hil
    rw [csf_not_inner_like_eq] at heq
    rw [state_of_some_eq heq]
    exact hres
  -- not of another scalar function: inner classification
  · intro c fn coll h1 h2 h3 h4 hN tail innerName innerArgs innerRt innerColl hNotLike
      ih b c' heq hres
    have hfn := eq_of_beq hN
    subst hfn
    have hne : ¬ innerName = ast.Like := fun hh => by rw [hh] at hNotLike; simp at hNotLike
    rw [csf_not_inner_scalar_eq cc c innerName hne innerArgs innerRt innerColl tail coll]
      at heq
    exact ih b c' heq hres
  -- not of a non-scalar operand: rejected
  · intro c fn coll h1 h2 h3 h4 hN a0 tail hshape b c' heq hres
    have hfn := eq_of_beq hN
    subst hfn
    have hsf : a0.isScalarFunction = false := by
      cases a0 with
      | scalarFunction n as rt cl => exact (hshape n as rt cl rfl).elim
      | column uid rt => rfl
      | constant cd => rfl
      | other rt => rfl
    rw [csf_not_nonscalar_eq cc c a0 hsf tail coll] at heq
    rw [state_of_some_eq heq]
    exact hres
  -- not with no operand: panic
  · intro c fn coll h1 h2 h3 h4 hN b c' heq hres
    have hfn := eq_of_beq hN
    subst hfn
    simp [checkScalarFunction] at heq
  -- in with no arguments: panic
  · intro c fn coll h1 h2 h3 h4 h5 hIn b c' heq hres
    have hfn := eq_of_beq hIn
    subst hfn
    simp [checkScalarFunction] at heq
  -- in, first argument is not the target column: rejected
  · intro c fn coll h1 h2 h3 h4 h5 hIn a2 tail hncol b c' heq hres
    have hfn := eq_of_beq hIn
    subst hfn
    have hcolF : checkColumn c a2 = false := by simpa using hncol
    rw [csf_in_colreject_eq cc c a2 tail coll hcolF] at heq
    rw [state_of_some_eq heq]
    exact hres
  -- in with only the column argument: panic
  · intro c fn coll h1 h2 h3 h4 h5 hIn a2 hcol b c' heq hres
    have hfn := eq_of_beq hIn
    subst hfn
    have hcolT : checkColumn c a2 = true := by simpa using hcol
    rw [csf_in_single_eq cc c a2 coll hcolT] at heq
    simp at heq
  -- in, incompatible collation: rejected
  · intro c fn coll h1 h2 h3 h4 h5 hIn a2 hcol a21 tail hstr b c' heq hres
    have hfn := eq_of_beq hIn
    subst hfn
    rw [csf_in_eq cc c a2 a21 tail coll, if_neg hcol, if_pos hstr] at heq
    rw [state_of_some_eq heq]
    exact hres
  -- in, list walk
  · intro c fn coll h1 h2 h3 h4 h5 hIn a2 hcol a21 tail hstr b c' heq hres
    have hfn := eq_of_beq hIn
    subst hfn
    rw [csf_in_eq cc c a2 a21 tail coll, if_neg hcol, if_neg hstr] at heq
    rw [state_of_some_eq heq]
    exact inListLoop_reserve_mono a2.GetType (ExprList.cons a21 tail) c hres
  -- like: delegate with the flag set
  · intro t c fn coll h1 h2 h3 h4 h5 h6 hLike b c' heq hres
    have hfn := eq_of_beq hLike
    subst hfn
    rw [csf_like_eq] at heq
    refine checkLikeFunc_reserve_mono cc _ t coll b c' heq ?_
    split_ifs <;> simp [hres]
  -- positional parameter marker: accepted, state untouched
  · intro t c fn coll h1 h2 h3 h4 h5 h6 h7 hGet b c' heq hres
    have hfn := eq_of_beq hGet
    subst hfn
    rw [csf_getparam_eq] at heq
    rw [state_of_some_eq heq]
    exact hres
  -- unknown function: rejected, state untouched
  · intro t c fn coll h1 h2 h3 h4 h5 h6 h7 h8 b c' heq hres
    rw [csf_default_eq cc c fn t coll h1 h2 h3 h4 h5 h6 h7 h8] at heq
    rw [state_of_some_eq heq]
    exact hres

theorem checkScalarFunction_reserve_mono (cc : String → String → Bool)
    (c : ConditionChecker) (fn : String) (args : ExprList) (coll : String)
    (b : Bool) (c' : ConditionChecker)
    (heq : checkScalarFunction cc c fn args coll = some (b, c'))
    (hres : c.shouldReserve = true) : c'.shouldReserve = true :=
  check_reserve_mono cc c
    (Expression.scalarFunction fn args ⟨EvalType.ETOther, "", ""⟩ coll) b c'
    (by rw [check_scalarFunction_eq]; exact heq) hres

/-! Evaluation of the shared comparison branch under a compatible collation in
non-full-length mode. -/

theorem cmpBranch_ne_eq (cc : String → String → Bool) (c : ConditionChecker)
    (cv : ConstantData) (colSide : Expression) (coll : String)
    (hcompat : colSide.GetType.evalType = EvalType.ETString →
      cc colSide.GetType.collate coll = true)
    (hfl : c.isFullLength = false) :
    cmpBranch cc c ast.NE cv colSide coll =
      some ((GetLengthOfPrefixableConstant (some cv) colSide.GetType != -1
        && decide (GetLengthOfPrefixableConstant (some cv) colSide.GetType < c.length)),
        c) := by
  unfold cmpBranch
  have hcond : (colSide.GetType.evalType == EvalType.ETString
      && !(cc colSide.GetType.collate coll)) = false := by
    cases hev : colSide.GetType.evalType with
    | ETString => simp [hev, hcompat hev]
    | ETOther => simp [hev]
  rw [if_neg (by rw [hcond]; exact Bool.false_ne_true)]
  rw [if_neg (by rw [hfl]; exact Bool.false_ne_true)]
  dsimp only
  rw [if_pos (by simp : (ast.NE == ast.NE) = true)]

theorem cmpBranch_other_eq (cc : String → String → Bool) (c : ConditionChecker)
    (fn : String) (cv : ConstantData) (colSide : Expression) (coll : String)
    (hne : (fn == ast.NE) = false)
    (hcompat : colSide.GetType.evalType = EvalType.ETString →
      cc colSide.GetType.collate coll = true)
    (hfl : c.isFullLength = false)
    (hlen : GetLengthOfPrefixableConstant (some cv) colSide.GetType = -1
      ∨ c.length ≤ GetLengthOfPrefixableConstant (some cv) colSide.GetType) :
    cmpBranch cc c fn cv colSide coll = some (true, { c with shouldReserve := true }) := by
  unfold cmpBranch
  have hcond : (colSide.GetType.evalType == EvalType.ETString
      && !(cc colSide.GetType.collate coll)) = false := by
    cases hev : colSide.GetType.evalType with
    | ETString => simp [hev, hcompat hev]
    | ETOther => simp [hev]
  rw [if_neg (by rw [hcond]; exact Bool.false_ne_true)]
  rw [if_neg (by rw [hfl]; exact Bool.false_ne_true)]
  dsimp only
  rw [if_neg (by rw [hne]; exact Bool.false_ne_true)]
  rw [if_pos (by rcases hlen with h | h <;> simp [h])]

/-! Claim theorems. -/

/-- C1: for a not-equal (`<>`) comparison in non-full-length mode whose two
arguments are one Constant and the target column (with compatible collation
when the column is string-like), `check` accepts iff the constant's prefixable
length is bounded (not `-1`) and strictly less than the target prefix length;
otherwise it returns false with the checker state unchanged (rejected, not
merely reserved).  Both argument orders are covered; the returned boolean is
exactly the conjunction of the two conditions. -/
theorem c1_ne_accept_iff (cc : String → String → Bool) (c : ConditionChecker)
    (cv : ConstantData) (uid : Int) (rt : FieldType) (rest : ExprList)
    (nodeRt : FieldType) (coll : String)
    (hfl : c.isFullLength = false)
    (hcol : c.colUniqueID = uid)
    (hcompat : rt.evalType = EvalType.ETString → cc rt.collate coll = true) :
    check cc c (Expression.scalarFunction ast.NE
        (ExprList.cons (Expression.constant cv)
          (ExprList.cons (Expression.column uid rt) rest)) nodeRt coll) =
      some ((GetLengthOfPrefixableConstant (some cv) rt != -1
        && decide (GetLengthOfPrefixableConstant (some cv) rt < c.length)), c)
    ∧ check cc c (Expression.scalarFunction ast.NE
        (ExprList.cons (Expression.column uid rt)
          (ExprList.cons (Expression.constant cv) rest)) nodeRt coll) =
      some ((GetLengthOfPrefixableConstant (some cv) rt != -1
        && decide (GetLengthOfPrefixableConstant (some cv) rt < c.length)), c) := by
  have hck : checkColumn c (Expression.column uid rt) = true := by
    simp [checkColumn, hcol]
  constructor
  · rw [check_scalarFunction_eq,
      csf_cmp_constFirst_eq cc c ast.NE (Or.inr (Or.inl rfl)) cv
        (Expression.column uid rt) rest coll hck,
      cmpBranch_ne_eq cc c cv (Expression.column uid rt) coll hcompat hfl]
    rfl
  · rw [check_scalarFunction_eq,
      csf_cmp_colFirst_eq cc c ast.NE (Or.inr (Or.inl rfl)) uid rt cv rest coll hck,
      cmpBranch_ne_eq cc c cv (Expression.column uid rt) coll hcompat hfl]
    rfl

/-- C1 witness: a two-byte string literal against prefix length 5 is bounded
and shorter, so the `<>` condition is accepted; at prefix length 2 it is
rejected. -/
theorem c1_ne_accept_iff_witness :
    check (fun _ _ => true)
        { colUniqueID := 1, shouldReserve := false, length := 5, isFullLength := false }
        (Expression.scalarFunction ast.NE
          (ExprList.cons
            (Expression.constant
              { value := { kind := DatumKind.KindString, bytes := [97, 98], int64 := 0,
                           toStr := some [97, 98] },
                deferredExpr := false, paramMarker := false,
                evalRes := some { kind := DatumKind.KindString, bytes := [97, 98],
                                  int64 := 0, toStr := some [97, 98] },
                retType := ⟨EvalType.ETString, "c", "utf8"⟩ })
            (ExprList.cons
              (Expression.column 1 ⟨EvalType.ETString, "c", "utf8"⟩) ExprList.nil))
          ⟨EvalType.ETString, "c", "utf8"⟩ "c") =
      some (true,
        { colUniqueID := 1, shouldReserve := false, length := 5, isFullLength := false }) := by
  have h := (c1_ne_accept_iff (fun _ _ => true)
    { colUniqueID := 1, shouldReserve := false, length := 5, isFullLength := false }
    { value := { kind := DatumKind.KindString, bytes := [97, 98], int64 := 0,
                 toStr := some [97, 98] },
      deferredExpr := false, paramMarker := false,
      evalRes := some { kind := DatumKind.KindString, bytes := [97, 98], int64 := 0,
                        toStr := some [97, 98] },
      retType := ⟨EvalType.ETString, "c", "utf8"⟩ }
    1 ⟨EvalType.ETString, "c", "utf8"⟩ ExprList.nil
    ⟨EvalType.ETString, "c", "utf8"⟩ "c" rfl rfl (fun _ => rfl)).1
  simpa using h

/-- C4: for every comparison operator other than not-equal (`=`, `>=`, `>`,
`<=`, `<`, `<=>`) in non-full-length mode with one Constant and the target
column (compatible collation when string-like): if the constant's prefixable
length is unbounded (`-1`) or at least the target prefix length, the condition
is still accepted and `shouldReserve` is set to true.  Both argument orders
are covered. -/
theorem c4_cmp_reserve_accept (cc : String → String → Bool) (c : ConditionChecker)
    (fn : String)
    (hfn : fn = ast.EQ ∨ fn = ast.GE ∨ fn = ast.GT ∨ fn = ast.LE ∨ fn = ast.LT
      ∨ fn = ast.NullEQ)
    (cv : ConstantData) (uid : Int) (rt : FieldType) (rest : ExprList)
    (nodeRt : FieldType) (coll : String)
    (hfl : c.isFullLength = false)
    (hcol : c.colUniqueID = uid)
    (hcompat : rt.evalType = EvalType.ETString → cc rt.collate coll = true)
    (hlen : GetLengthOfPrefixableConstant (some cv) rt = -1
      ∨ c.length ≤ GetLengthOfPrefixableConstant (some cv) rt) :
    check cc c (Expression.scalarFunction fn
        (ExprList.cons (Expression.constant cv)
          (ExprList.cons (Expression.column uid rt) rest)) nodeRt coll) =
      some (true, { c with shouldReserve := true })
    ∧ check cc c (Expression.scalarFunction fn
        (ExprList.cons (Expression.column uid rt)
          (ExprList.cons (Expression.constant cv) rest)) nodeRt coll) =
      some (true, { c with shouldReserve := true }) := by
  have hck : checkColumn c (Expression.column uid rt) = true := by
    simp [checkColumn, hcol]
  have hcmp : isCmpOp fn := by unfold isCmpOp; tauto
  have hne : (fn == ast.NE) = false := by
    rcases hfn with h | h | h | h | h | h <;> subst h <;> rfl
  constructor
  · rw [check_scalarFunction_eq,
      csf_cmp_constFirst_eq cc c fn hcmp cv (Expression.column uid rt) rest coll hck,
      cmpBranch_other_eq cc c fn cv (Expression.column uid rt) coll hne hcompat hfl hlen]
  · rw [check_scalarFunction_eq,
      csf_cmp_colFirst_eq cc c fn hcmp uid rt cv rest coll hck,
      cmpBranch_other_eq cc c fn cv (Expression.column uid rt) coll hne hcompat hfl hlen]

/-- C4 witness: an unevaluable constant (deferred expression) compared with
`>=` against the target column at prefix length 5 is accepted with the
reservation flag set. -/
theorem c4_cmp_reserve_accept_witness :
    check (fun _ _ => true)
        { colUniqueID := 1, shouldReserve := false, length := 5, isFullLength := false }
        (Expression.scalarFunction ast.GE
          (ExprList.cons
            (Expression.constant
              { value := { kind := DatumKind.KindString, bytes := [], int64 := 0,
                           toStr := none },
                deferredExpr := true, paramMarker := false, evalRes := none,
                retType := ⟨EvalType.ETString, "c", "utf8"⟩ })
            (ExprList.cons
              (Expression.column 1 ⟨EvalType.ETString, "c", "utf8"⟩) ExprList.nil))
          ⟨EvalType.ETString, "c", "utf8"⟩ "c") =
      some (true,
        { colUniqueID := 1, shouldReserve := true, length := 5, isFullLength := false }) := by
  have h := (c4_cmp_reserve_accept (fun _ _ => true)
    { colUniqueID := 1, shouldReserve := false, length := 5, isFullLength := false }
    ast.GE (Or.inr (Or.inl rfl))
    { value := { kind := DatumKind.KindString, bytes := [], int64 := 0, toStr := none },
      deferredExpr := true, paramMarker := false, evalRes := none,
      retType := ⟨EvalType.ETString, "c", "utf8"⟩ }
    1 ⟨EvalType.ETString, "c", "utf8"⟩ ExprList.nil
    ⟨EvalType.ETString, "c", "utf8"⟩ "c" rfl rfl (fun _ => rfl) (Or.inl rfl)).1
  simpa using h

/-- C8: for a logical NOT node, `check` rejects it when its single operand is
not a ScalarFunction; rejects it when the inner function is LIKE; and in every
other case returns exactly the operand's own classification result, with no
logical inversion. -/
theorem c8_unary_not (cc : String → String → Bool) (c : ConditionChecker) :
    (∀ (a0 : Expression) (rest : ExprList) (rt : FieldType) (coll : String),
      a0.isScalarFunction = false →
      check cc c (Expression.scalarFunction ast.UnaryNot (ExprList.cons a0 rest) rt coll)
        = some (false, c))
    ∧ (∀ (iargs : ExprList) (irt : FieldType) (icoll : String) (rest : ExprList)
        (rt : FieldType) (coll : String),
      check cc c (Expression.scalarFunction ast.UnaryNot
        (ExprList.cons (Expression.scalarFunction ast.Like iargs irt icoll) rest) rt coll)
        = some (false, c))
    ∧ (∀ (inner : String) (iargs : ExprList) (irt : FieldType) (icoll : String)
        (rest : ExprList) (rt : FieldType) (coll : String), ¬ inner = ast.Like →
      check cc c (Expression.scalarFunction ast.UnaryNot
        (ExprList.cons (Expression.scalarFunction inner iargs irt icoll) rest) rt coll)
        = check cc c (Expression.scalarFunction inner iargs irt icoll)) := by
  refine ⟨?_, ?_, ?_⟩
  · intro a0 rest rt coll hsf
    rw [check_scalarFunction_eq, csf_not_nonscalar_eq cc c a0 hsf rest coll]
  · intro iargs irt icoll rest rt coll
    rw [check_scalarFunction_eq, csf_not_inner_like_eq]
  · intro inner iargs irt icoll rest rt coll hinner
    rw [check_scalarFunction_eq,
      csf_not_inner_scalar_eq cc c inner hinner iargs irt icoll rest coll]

/-- C8 witness: NOT over a bare constant is rejected, and NOT over an inner
IS NULL returns the inner classification. -/
theorem c8_unary_not_witness :
    check (fun _ _ => true)
        { colUniqueID := 1, shouldReserve := false, length := 5, isFullLength := false }
        (Expression.scalarFunction ast.UnaryNot
          (ExprList.cons
            (Expression.constant
              { value := { kind := DatumKind.KindInt64, bytes := [], int64 := 1,
                           toStr := none },
                deferredExpr := false, paramMarker := false, evalRes := none,
                retType := ⟨EvalType.ETOther, "", ""⟩ })
            ExprList.nil)
          ⟨EvalType.ETOther, "", ""⟩ "") =
      some (false,
        { colUniqueID := 1, shouldReserve := false, length := 5, isFullLength := false }) := by
  have h := (c8_unary_not (fun _ _ => true)
    { colUniqueID := 1, shouldReserve := false, length := 5, isFullLength := false }).1
    (Expression.constant
      { value := { kind := DatumKind.KindInt64, bytes := [], int64 := 1, toStr := none },
        deferredExpr := false, paramMarker := false, evalRes := none,
        retType := ⟨EvalType.ETOther, "", ""⟩ })
    ExprList.nil ⟨EvalType.ETOther, "", ""⟩ "" rfl
  exact h

/-- Pattern constant `"abc%"` used by the C2 development. -/
def c2patternConst : ConstantData :=
  { value := { kind := DatumKind.KindString, bytes := [97, 98, 99, 37],
               int64 := 0, toStr := some [97, 98, 99, 37] },
    deferredExpr := false, paramMarker := false,
    evalRes := some { kind := DatumKind.KindString, bytes := [97, 98, 99, 37],
                      int64 := 0, toStr := some [97, 98, 99, 37] },
    retType := ⟨EvalType.ETString, "cl", "utf8"⟩ }

/-- Escape constant `92` (backslash) used by the C2 development. -/
def c2escapeConst : ConstantData :=
  { value := { kind := DatumKind.KindInt64, bytes := [], int64 := 92, toStr := none },
    deferredExpr := false, paramMarker := false, evalRes := none,
    retType := ⟨EvalType.ETOther, "", ""⟩ }

/-- Checker for one target column at prefix length 10 used by the C2
development. -/
def c2checker : ConditionChecker :=
  { colUniqueID := 1, shouldReserve := false, length := 10, isFullLength := false }

/-- LIKE node `col LIKE "abc%" ESCAPE 92` used by the C2 development. -/
def c2likeNode : Expression :=
  Expression.scalarFunction ast.Like
    (argsOf [Expression.column 1 ⟨EvalType.ETString, "cl", "utf8"⟩,
      Expression.constant c2patternConst, Expression.constant c2escapeConst])
    ⟨EvalType.ETString, "cl", "utf8"⟩ "cl"

/-- C2 counterexample: for the LIKE condition with literal pattern `"abc%"`
checked against target prefix length 10 in non-full-length mode, `check`
accepts the condition but `shouldReserve` is true after the walk (the LIKE
dispatch sets it unconditionally in non-full-length mode), so the claimed
outcome — acceptance with `shouldReserve` still false — is false. -/
theorem c2_counterexample :
    check (fun _ _ => true) c2checker c2likeNode =
      some (true, { c2checker with shouldReserve := true })
    ∧ ¬ (check (fun _ _ => true) c2checker c2likeNode = some (true, c2checker)) := by
  decide

/-- C2 amended: the LIKE condition with literal pattern `"abc%"` (trailing `%`)
against target prefix length 10 in non-full-length mode is accepted, and
`shouldReserve` is true after the walk — set unconditionally by the LIKE
dispatch of checkScalarFunction in non-full-length mode; the pattern scanner
itself (`checkLikeFunc`) adds no reservation for the trailing `%`: run on its
own from a checker with the flag still false it accepts and leaves the flag
false. -/
theorem c2_like_trailing_percent :
    check (fun _ _ => true) c2checker c2likeNode =
      some (true, { c2checker with shouldReserve := true })
    ∧ checkLikeFunc (fun _ _ => true) c2checker
        (argsOf [Expression.column 1 ⟨EvalType.ETString, "cl", "utf8"⟩,
          Expression.constant c2patternConst, Expression.constant c2escapeConst]) "cl"
      = some (true, c2checker) := by
  decide

/-- Column of string type whose collation is incompatible, used by the C3
development. -/
def c3column : Expression := Expression.column 7 ⟨EvalType.ETString, "c1", "utf8"⟩

/-- Integer list element of the IN list used by the C3 development. -/
def c3intElem : Expression :=
  Expression.constant
    { value := { kind := DatumKind.KindInt64, bytes := [], int64 := 1, toStr := none },
      deferredExpr := false, paramMarker := false,
      evalRes := some { kind := DatumKind.KindInt64, bytes := [], int64 := 1,
                        toStr := none },
      retType := ⟨EvalType.ETOther, "", ""⟩ }

/-- Full-length checker targeting the C3 column. -/
def c3checker : ConditionChecker :=
  { colUniqueID := 7, shouldReserve := false, length := 0, isFullLength := true }

/-- IN node `col IN (1)` used by the C3 development. -/
def c3inNode : Expression :=
  Expression.scalarFunction ast.In (argsOf [c3column, c3intElem])
    ⟨EvalType.ETOther, "", ""⟩ "c2"

/-- C3 counterexample: an IN condition whose first argument is the target
column, where the column is string-like and its declared collation is
incompatible with the function's derived collation (the compatibility
predicate returns false on every pair), is nevertheless accepted, because the
code tests the eval type of the first IN-list element (`GetArgs()[1]`), not
the column's; here that element is an integer constant. -/
theorem c3_counterexample :
    c3column.GetType.evalType = EvalType.ETString
    ∧ (fun _ _ => false : String → String → Bool) c3column.GetType.collate "c2" = false
    ∧ checkColumn c3checker c3column = true
    ∧ check (fun _ _ => false) c3checker c3inNode = some (true, c3checker) := by
  decide

/-- C3 amended: for an IN condition whose first argument resolves to the
target column, if the **first IN-list element's** eval type (GetArgs()[1], not
the column's) is string-like and the column's declared collation is not
compatible with the function's derived collation, `check` rejects the IN
condition. -/
theorem c3_in_collation_reject (cc : String → String → Bool) (c : ConditionChecker)
    (a0 a1 : Expression) (rest : ExprList) (rt : FieldType) (coll : String)
    (hcol : checkColumn c a0 = true)
    (hstr : a1.GetType.evalType = EvalType.ETString)
    (hincompat : cc a0.GetType.collate coll = false) :
    check cc c (Expression.scalarFunction ast.In
        (ExprList.cons a0 (ExprList.cons a1 rest)) rt coll) = some (false, c) := by
  rw [check_scalarFunction_eq, csf_in_eq]
  rw [if_neg (by simp [hcol])]
  rw [if_pos (by simp [hstr, hincompat])]

/-- C3 amended witness: a string-typed first list element with an incompatible
collation makes the IN condition rejected. -/
theorem c3_in_collation_reject_witness :
    check (fun _ _ => false) c3checker
        (Expression.scalarFunction ast.In
          (argsOf [c3column,
            Expression.constant
              { value := { kind := DatumKind.KindString, bytes := [97], int64 := 0,
                           toStr := some [97] },
                deferredExpr := false, paramMarker := false,
                evalRes := some { kind := DatumKind.KindString, bytes := [97],
                                  int64 := 0, toStr := some [97] },
                retType := ⟨EvalType.ETString, "c1", "utf8"⟩ }])
          ⟨EvalType.ETOther, "", ""⟩ "c2") = some (false, c3checker) := by
  have h := c3_in_collation_reject (fun _ _ => false) c3checker c3column
    (Expression.constant
      { value := { kind := DatumKind.KindString, bytes := [97], int64 := 0,
                   toStr := some [97] },
        deferredExpr := false, paramMarker := false,
        evalRes := some { kind := DatumKind.KindString, bytes := [97], int64 := 0,
                          toStr := some [97] },
        retType := ⟨EvalType.ETString, "c1", "utf8"⟩ })
    ExprList.nil ⟨EvalType.ETOther, "", ""⟩ "c2" (by decide) rfl rfl
  exact h

/-- C5: during a single classification walk the `shouldReserve` flag is
monotone — it only ever transitions from false to true and is never reset by
`check`, `checkScalarFunction` or `checkLikeFunc` (stated for each of the
three stateful walkers; `checkColumn` returns only a boolean and by
construction cannot write the flag): whenever a walk starting with the flag
set returns, the flag is still set. -/
theorem c5_reserve_monotone (cc : String → String → Bool) :
    (∀ (c : ConditionChecker) (e : Expression) (b : Bool) (c' : ConditionChecker),
      check cc c e = some (b, c') → c.shouldReserve = true → c'.shouldReserve = true)
    ∧ (∀ (c : ConditionChecker) (fn : String) (args : ExprList) (coll : String)
        (b : Bool) (c' : ConditionChecker),
      checkScalarFunction cc c fn args coll = some (b, c') →
        c.shouldReserve = true → c'.shouldReserve = true)
    ∧ (∀ (c : ConditionChecker) (args : ExprList) (coll : String)
        (b : Bool) (c' : ConditionChecker),
      checkLikeFunc cc c args coll = some (b, c') →
        c.shouldReserve = true → c'.shouldReserve = true) :=
  ⟨check_reserve_mono cc,
   fun c fn args coll b c' heq h =>
     checkScalarFunction_reserve_mono cc c fn args coll b c' heq h,
   fun c args coll b c' heq h =>
     checkLikeFunc_reserve_mono cc c args coll b c' heq h⟩

/-- C5 witness: a walk over a constant starting with the flag set ends with
the flag set. -/
theorem c5_reserve_monotone_witness :
    ({ colUniqueID := 1, shouldReserve := true, length := 5, isFullLength := false } :
      ConditionChecker).shouldReserve = true :=
  (c5_reserve_monotone (fun _ _ => true)).1
    { colUniqueID := 1, shouldReserve := true, length := 5, isFullLength := false }
    (Expression.constant
      { value := { kind := DatumKind.KindInt64, bytes := [], int64 := 0, toStr := none },
        deferredExpr := false, paramMarker := false, evalRes := none,
        retType := ⟨EvalType.ETOther, "", ""⟩ })
    true
    { colUniqueID := 1, shouldReserve := true, length := 5, isFullLength := false }
    rfl rfl

/-- C6: `GetLengthOfPrefixableConstant` is total (a Lean function, defined on
every input) and never signals an error: for a nil constant, a constant
carrying a deferred expression or a parameter marker, a constant whose
evaluation fails, or one whose evaluated value is not of string or bytes kind,
it returns the unbounded sentinel `-1` instead of propagating a fault. -/
theorem c6_estimator_unbounded (c : Option ConstantData) (tp : FieldType)
    (h : c = none
      ∨ ∃ cd, c = some cd ∧ (cd.deferredExpr = true ∨ cd.paramMarker = true
        ∨ cd.evalRes = none
        ∨ ∀ v, cd.evalRes = some v →
            v.kind ≠ DatumKind.KindBytes ∧ v.kind ≠ DatumKind.KindString)) :
    GetLengthOfPrefixableConstant c tp = -1 := by
  rcases h with rfl | ⟨cd, rfl, hcase⟩
  · rfl
  · rcases hcase with h | h | h | h
    · simp [GetLengthOfPrefixableConstant, h]
    · simp [GetLengthOfPrefixableConstant, h]
    · simp [GetLengthOfPrefixableConstant, h]
    · rcases hev : cd.evalRes with _ | v
      · simp [GetLengthOfPrefixableConstant, hev]
      · obtain ⟨h1, h2⟩ := h v hev
        simp [GetLengthOfPrefixableConstant, hev, h1, h2]

/-- C6 witness: a nil constant and an integer-valued constant both yield the
unbounded sentinel. -/
theorem c6_estimator_unbounded_witness :
    GetLengthOfPrefixableConstant none ⟨EvalType.ETString, "cl", "utf8"⟩ = -1 :=
  c6_estimator_unbounded none ⟨EvalType.ETString, "cl", "utf8"⟩ (Or.inl rfl)

/-- Nine UTF-8 bytes encoding three CJK runes, used by the C7 development. -/
def c7bytes : List Nat := [0xE4, 0xB8, 0x80, 0xE4, 0xBA, 0x8C, 0xE4, 0xB8, 0x89]

/-- Constant evaluating to the three-rune / nine-byte string, used by the C7
development. -/
def c7const : ConstantData :=
  { value := { kind := DatumKind.KindString, bytes := c7bytes, int64 := 0,
               toStr := some c7bytes },
    deferredExpr := false, paramMarker := false,
    evalRes := some { kind := DatumKind.KindString, bytes := c7bytes, int64 := 0,
                      toStr := some c7bytes },
    retType := ⟨EvalType.ETString, "cl", "utf8"⟩ }

/-- C7: for a statically evaluable string/bytes constant,
`GetLengthOfPrefixableConstant` returns the rune count of the evaluated bytes
when the compared column's declared charset is a UTF-8 family charset
(`utf8` or `utf8mb4`) and the raw byte length otherwise; in particular the
three-rune / nine-byte literal against a `utf8` column yields 3, not 9. -/
theorem c7_charset_rune_length (cd : ConstantData) (tp : FieldType) (v : Datum)
    (hdef : cd.deferredExpr = false) (hpar : cd.paramMarker = false)
    (hev : cd.evalRes = some v)
    (hkind : v.kind = DatumKind.KindBytes ∨ v.kind = DatumKind.KindString) :
    (GetLengthOfPrefixableConstant (some cd) tp =
      if tp.charset == charset.CharsetUTF8 || tp.charset == charset.CharsetUTF8MB4
      then (runeCount v.GetBytes : Int) else (v.GetBytes.length : Int))
    ∧ GetLengthOfPrefixableConstant (some c7const) ⟨EvalType.ETString, "cl", "utf8"⟩ = 3
    ∧ ¬ GetLengthOfPrefixableConstant (some c7const)
        ⟨EvalType.ETString, "cl", "utf8"⟩ = 9 := by
  refine ⟨?_, by decide, by decide⟩
  simp only [GetLengthOfPrefixableConstant, hdef, hpar, hev]
  rcases hkind with h | h <;> simp [h, Datum.GetBytes]

/-- C7 witness: the general charset rule applied to the concrete three-rune
constant under the `utf8mb4` charset also yields the rune count. -/
theorem c7_charset_rune_length_witness :
    GetLengthOfPrefixableConstant (some c7const) ⟨EvalType.ETString, "cl", "utf8mb4"⟩
      = 3 := by
  have h := (c7_charset_rune_length c7const ⟨EvalType.ETString, "cl", "utf8mb4"⟩
    c7const.value rfl rfl rfl (Or.inr rfl)).1
  simpa using h

/-- C9: rejection does not roll back the reservation flag — in non-full-length
mode, an IS NULL whose single operand is not the target column sets
`shouldReserve` before the column-identity test fails, and the rejected walk
leaves the flag set: `check` returns false with `shouldReserve` now true. -/
theorem c9_reject_keeps_reservation :
    check (fun _ _ => true)
        { colUniqueID := 1, shouldReserve := false, length := 5, isFullLength := false }
        (Expression.scalarFunction ast.IsNull
          (argsOf [Expression.column 99 ⟨EvalType.ETOther, "", ""⟩])
          ⟨EvalType.ETOther, "", ""⟩ "")
      = some (false,
          { colUniqueID := 1, shouldReserve := true, length := 5, isFullLength := false }) := by
  decide

/-- C10: `checkLikeFunc` casts the third (escape) argument of a LIKE node to a
Constant unconditionally after the collation, column and pattern checks pass;
when the LIKE node has three arguments and the third is a Constant (as the
parser guarantees), the cast never fails and the function is total: the walk
always returns a value (`isSome`), never the modelled panic `none`. -/
theorem c10_like_escape_cast_total (cc : String → String → Bool)
    (c : ConditionChecker) (a0 a1 : Expression) (e2 : ConstantData)
    (rest : ExprList) (coll : String) :
    (checkLikeFunc cc c (ExprList.cons a0 (ExprList.cons a1
      (ExprList.cons (Expression.constant e2) rest))) coll).isSome = true := by
  simp only [checkLikeFunc]
  split_ifs with h1 h2 <;> try rfl
  rcases hc : a1.asConstant with _ | cv <;> dsimp only
  · rfl
  by_cases hnull : cv.value.IsNull = true
  · rw [if_pos hnull]; rfl
  rw [if_neg hnull]
  rcases hts : cv.value.ToString with _ | ps <;> dsimp only
  · rfl
  by_cases hlen : (ps.length == 0) = true
  · rw [if_pos hlen]; rfl
  rw [if_neg hlen]
  dsimp only [Expression.asConstant]
  rfl

end RangerChecker
